import Mathlib

/-!
Shallow embedding of `mat_dp_core/maths_core/processes.py`.

The Python module defines three classes:
* `Processes` — the process registry, a list of `(name, numpy-array)` pairs
  plus a lazily computed, cached produce matrix;
* `Process` — a handle: a reference to an owning registry, a positional
  index and a scalar multiplier;
* `ProcessExpr` — a list of handles forming a linear combination.

Modelling conventions:
* Python floats are modelled by `ℚ` (exact arithmetic; all claim values are
  exact small numbers).
* Python object identity of a registry is modelled by a `Nat` identifier
  (`_parent` in a handle); `Processes` defines no `__eq__`, so Python's
  `!=` on parents is identity comparison, i.e. comparison of identifiers.
* Python exceptions are modelled by the `PyErr` type; a raising call
  returns `Except PyErr`.  Functions that mutate an object return the
  post-state of that object explicitly alongside the result.
* Expression-level in-place mutation with object identity (needed for the
  `__mul__`/`__neg__` "returns the same object" behaviour) is modelled by
  a small heap: a `Store` is a list of term lists, an expression object is
  an index into it.
-/

set_option autoImplicit false

namespace MatDp

/-- Python exceptions raised by the module: `ValueError`, `IndexError`,
`KeyError`, each carrying its message. -/
inductive PyErr where
  | valueError (msg : String)
  | indexError (msg : String)
  | keyError (msg : String)
deriving DecidableEq

/-- External `Resource` contract: only its zero-based integer `index` is
used by this module. -/
structure Resource where
  index : Nat
deriving DecidableEq

/-- `Process` handle: owning-registry identity (`_parent`), positional
`index` (an `Int`: `Processes.__getitem__` can construct a handle with a
negative index), and scalar `multiplier` (initialised to 1). -/
structure Process where
  _parent : Nat
  index : Int
  multiplier : ℚ
deriving DecidableEq

/-- The message of Python's `IndexError` on list subscripts. -/
def indexErrMsg : String := "list index out of range"

/-- `Process.__eq__`: identical index and identical owning registry; the
multiplier is deliberately ignored. -/
def procEq (a b : Process) : Bool :=
  a.index == b.index && a._parent == b._parent

/-- One iteration of the merge loop in `ProcessExpr.__add__`: if a
structurally-equal handle is already present, add the multiplier into the
first such handle; otherwise append the handle at the end
(`self._processes.append(process)` / `current_process.multiplier += ...`). -/
def mergeStep : List Process → Process → List Process
  | [], p => [p]
  | q :: rest, p =>
    if procEq q p then { q with multiplier := q.multiplier + p.multiplier } :: rest
    else q :: mergeStep rest p

/-- The whole merge loop of `ProcessExpr.__add__` over the right operand's
term list, mutating the left operand's list. -/
def mergeAll (selfL otherL : List Process) : List Process :=
  otherL.foldl mergeStep selfL

/-- The filtered term list wrapped by the `ProcessExpr` returned from
`__add__`: only terms with non-zero multiplier are kept. -/
def addFilter (l : List Process) : List Process :=
  l.filter (fun p => p.multiplier != 0)

/-- The value of the new `ProcessExpr` returned by a successful
`ProcessExpr.__add__`. -/
def addResult (selfL otherL : List Process) : List Process :=
  addFilter (mergeAll selfL otherL)

/-- The right operand of `ProcessExpr.__add__`: either a bare `Process` or
a `ProcessExpr` (its term list). -/
inductive AddOperand where
  | proc : Process → AddOperand
  | expr : List Process → AddOperand

/-- `ProcessExpr.__add__`.  Returns `(result-or-error, post-state of
self._processes)`.  Faithful to the source's evaluation order:
* expr case: reads `other._processes[0]` (IndexError on an empty right
  operand), then `self._processes[0]` (IndexError on an empty left
  operand), then compares parents (ValueError on mismatch), then runs the
  merge loop, mutating `self._processes`, and returns a new expression
  holding the non-zero-multiplier terms;
* process case: reads `other._parent`, then `self._processes[0]`
  (IndexError on an empty left operand), then compares parents, then
  merges a copy of the handle. -/
def exprAddOp (selfL : List Process) (other : AddOperand) :
    Except PyErr (List Process) × List Process :=
  match other with
  | .expr otherL =>
    match otherL.head? with
    | none => (.error (.indexError indexErrMsg), selfL)
    | some ofirst =>
      match selfL.head? with
      | none => (.error (.indexError indexErrMsg), selfL)
      | some sfirst =>
        if sfirst._parent = ofirst._parent then
          (.ok (addResult selfL otherL), mergeAll selfL otherL)
        else
          (.error (.valueError "Combining two exprs from different processes classes"), selfL)
  | .proc p =>
    match selfL.head? with
    | none => (.error (.indexError indexErrMsg), selfL)
    | some sfirst =>
      if sfirst._parent = p._parent then
        (.ok (addResult selfL [p]), mergeAll selfL [p])
      else
        (.error (.valueError "Combining process and expr from different processes classes"), selfL)

/-- Scale every term of an expression's list (`element.multiplier *= other`). -/
def scaleList (l : List Process) (k : ℚ) : List Process :=
  l.map (fun p => { p with multiplier := p.multiplier * k })

/-- Negate every term of an expression's list (`element.multiplier = -element.multiplier`). -/
def negList (l : List Process) : List Process :=
  l.map (fun p => { p with multiplier := -p.multiplier })

/-- The value-level content of `ProcessExpr.__mul__`: by 1, the list is
untouched; otherwise every multiplier is scaled in place. -/
def exprMulVal (l : List Process) (k : ℚ) : List Process :=
  if k = 1 then l else scaleList l k

/-- `Process.__mul__`: a copy of the handle with a scaled multiplier,
wrapped in a fresh one-term expression; the original handle is untouched. -/
def procMulList (p : Process) (k : ℚ) : List Process :=
  [{ p with multiplier := p.multiplier * k }]

/-- `Process.__add__ : self * 1 + other * 1` with a `Process` right operand
(`other * 1` builds a fresh one-term expression, so the expr branch of
`ProcessExpr.__add__` runs). -/
def procAddProc (a b : Process) : Except PyErr (List Process) × List Process :=
  exprAddOp (procMulList a 1) (.expr (procMulList b 1))

/-- `Process.__add__ : self * 1 + other * 1` with a `ProcessExpr` right
operand (`other * 1` returns the very same expression, by the
multiply-by-1 short-circuit). -/
def procAddExpr (a : Process) (otherL : List Process) :
    Except PyErr (List Process) × List Process :=
  exprAddOp (procMulList a 1) (.expr (exprMulVal otherL 1))

/-- `Process.__sub__ : self * 1 + -other` with a `Process` right operand
(`-other` is `other * -1`, a fresh one-term expression). -/
def procSubProc (a b : Process) : Except PyErr (List Process) × List Process :=
  exprAddOp (procMulList a 1) (.expr (procMulList b (-1)))

/-- `ProcessExpr.__sub__ : self + -other` for an expression right operand:
`-other` first negates every multiplier of `other` in place, then the
expr branch of `__add__` runs on the negated list.  Returns
`(result-or-error, post-state of self, post-state of other)`; the third
component is the observable mutation of the right operand. -/
def exprSubExpr (selfL otherL : List Process) :
    Except PyErr (List Process) × List Process × List Process :=
  ((exprAddOp selfL (.expr (negList otherL))).1,
   (exprAddOp selfL (.expr (negList otherL))).2,
   negList otherL)

/-- A heap of expression objects: index = object identity,
entry = the object's `_processes` list. -/
abbrev Store := List (List Process)

/-- `ProcessExpr.__mul__` on the heap: multiplying by exactly 1 returns
`self` with no change at all; otherwise every term's multiplier is scaled
in place and the very same object is returned. -/
def exprMulH (st : Store) (e : Nat) (k : ℚ) : Nat × Store :=
  if k = 1 then (e, st)
  else (e, st.set e (scaleList (st.getD e []) k))

/-- `ProcessExpr.__rmul__` delegates to `__mul__`. -/
def exprRMulH (st : Store) (e : Nat) (k : ℚ) : Nat × Store :=
  exprMulH st e k

/-- `ProcessExpr.__neg__` on the heap: flips every term's multiplier sign
in place and returns the same object. -/
def exprNegH (st : Store) (e : Nat) : Nat × Store :=
  (e, st.set e (negList (st.getD e [])))

instance {ε α : Type} [DecidableEq ε] [DecidableEq α] : DecidableEq (Except ε α) := fun x y =>
  match x, y with
  | .ok a, .ok b =>
    if h : a = b then isTrue (by rw [h]) else isFalse (by simp [h])
  | .error a, .error b =>
    if h : a = b then isTrue (by rw [h]) else isFalse (by simp [h])
  | .ok _, .error _ => isFalse (by simp)
  | .error _, .ok _ => isFalse (by simp)

/-- Python `max` over a list of naturals (nonempty in every use site). -/
def listMax (l : List Nat) : Nat :=
  l.foldr max 0

/-- Python list subscript `l[i]` with an `Int` index: nonnegative indices
address from the front, negative indices from the back; out-of-range
subscripts yield `none` (an `IndexError` in Python). -/
def pyGet {α : Type} (l : List α) (i : Int) : Option α :=
  if 0 ≤ i then l.get? i.toNat
  else if 0 ≤ (l.length : Int) + i then l.get? ((l.length : Int) + i).toNat
  else none

/-- `Processes` registry state: the ordered list of `(name, vector)`
definitions and the produce-matrix cache (initially `None`). -/
structure Processes where
  _processes : List (String × List ℚ)
  _process_produces : Option (List (List ℚ))
deriving DecidableEq

/-- Default `(name, vector)` pair for positional `getD` access. -/
def dfltPr : String × List ℚ := ("", [])

/-- `Processes.__getitem__` with an integer argument.  Source check is
only `arg < len(self._processes)`: any smaller argument — negative ones
included — yields a handle carrying that argument as its index. -/
def Processes.getitemInt (rid : Nat) (r : Processes) (arg : Int) : Except PyErr Process :=
  if arg < (r._processes.length : Int) then .ok ⟨rid, arg, 1⟩
  else .error (.indexError indexErrMsg)

/-- The list comprehension
`[i for i, (name, _) in enumerate(self._processes) if name == arg]`,
with the running `enumerate` counter made explicit. -/
def namedIndicesAux (arg : String) : Nat → List (String × List ℚ) → List Nat
  | _, [] => []
  | i, pr :: rest =>
    if pr.1 = arg then i :: namedIndicesAux arg (i + 1) rest
    else namedIndicesAux arg (i + 1) rest

/-- Indices of the definitions whose name equals `arg`, in order. -/
def namedIndices (r : Processes) (arg : String) : List Nat :=
  namedIndicesAux arg 0 r._processes

/-- The `KeyError` message for a name with no match: `f"'{arg}'"`. -/
def notFoundMsg (arg : String) : String := "'" ++ arg ++ "'"

/-- The `KeyError` message for a non-unique name. -/
def ambiguousMsg (arg : String) : String :=
  "Name " ++ arg ++ " non unique: please use index"

/-- `Processes.__getitem__` with a string argument: zero matches raise
`KeyError(f"'{arg}'")`, several matches raise the non-unique `KeyError`,
a single match yields a handle at that index. -/
def Processes.getitemName (rid : Nat) (r : Processes) (arg : String) : Except PyErr Process :=
  match namedIndices r arg with
  | [] => .error (.keyError (notFoundMsg arg))
  | [i] => .ok ⟨rid, (i : Int), 1⟩
  | _ => .error (.keyError (ambiguousMsg arg))

/-- Largest supplied resource index (`max([resource.index for ...])`). -/
def maxResIdx (resources : List (Resource × ℚ)) : Nat :=
  listMax (resources.map (fun rq => rq.1.index))

/-- The vector built by `Processes.create`: a zero vector of length
`max index + 1`, then `array[resource.index] = v` for each pair in supply
order — so the last write at an index wins. -/
def mkVec (resources : List (Resource × ℚ)) : List ℚ :=
  resources.foldl (fun a rq => a.set rq.1.index rq.2) (List.replicate (maxResIdx resources + 1) 0)

/-- `Processes.create`: raises `ValueError` on an empty pair list (state
unchanged), otherwise appends `(name, mkVec resources)` and returns
`self[len(self._processes) - 1]`. -/
def Processes.create (rid : Nat) (r : Processes) (name : String)
    (resources : List (Resource × ℚ)) : Except PyErr Process × Processes :=
  match resources with
  | [] => (.error (.valueError ("No resources attached to " ++ name)), r)
  | _ =>
    let r' : Processes := { r with _processes := r._processes ++ [(name, mkVec resources)] }
    (r'.getitemInt rid ((r'._processes.length : Int) - 1), r')

/-- The maximum vector length over all current definitions
(`max([len(process.array) for process in self])`). -/
def maxVecLen (r : Processes) : Nat :=
  listMax (r._processes.map (fun pr => pr.2.length))

/-- `numpy.resize(n, refcheck=False)` on a vector: right-pad with zeros up
to `n` (and truncate beyond `n`, which never happens at the use site). -/
def npResize (v : List ℚ) (n : Nat) : List ℚ :=
  (v ++ List.replicate n 0).take n

/-- The registry after the padding loop of `process_produces`: every
stored vector resized in place to the maximum length. -/
def paddedProcesses (r : Processes) : List (String × List ℚ) :=
  r._processes.map (fun pr => (pr.1, npResize pr.2 (maxVecLen r)))

/-- `np.transpose(np.array(cols))` for equal-length numeric vectors:
row `i` of the result collects entry `i` of every column. -/
def transposeMat (numRows : Nat) (cols : List (List ℚ)) : List (List ℚ) :=
  (List.range numRows).map (fun i => cols.map (fun v => v.getD i 0))

/-- The produce matrix value computed on the first access: rows are
resource positions, column `j` is definition `j`'s padded vector. -/
def produceMatrix (r : Processes) : List (List ℚ) :=
  transposeMat (maxVecLen r) ((paddedProcesses r).map (fun pr => pr.2))

/-- `Processes.process_produces`: returns the cached matrix untouched when
present; otherwise takes the maximum vector length over all current
definitions (`max` of an empty sequence raises `ValueError` on an empty
registry), pads every stored vector in place, builds and caches the
transposed matrix.  Returns `(result-or-error, post-state of the registry)`. -/
def Processes.process_produces (r : Processes) : Except PyErr (List (List ℚ)) × Processes :=
  match r._process_produces with
  | some m => (.ok m, r)
  | none =>
    match r._processes with
    | [] => (.error (.valueError "max() arg is an empty sequence"), r)
    | _ =>
      (.ok (produceMatrix r),
       { _processes := paddedProcesses r, _process_produces := some (produceMatrix r) })

/-- Rendering of a rational magnitude in a handle's format string. -/
def ratStr (q : ℚ) : String := toString q

/-- `Process.__format__`: `"- "` prefix exactly for a negative multiplier;
the bare name when the magnitude is exactly 1, else `"<magnitude>*<name>"`.
The name is `self._parent._processes[self.index][0]`, a live registry
lookup, which can itself raise `IndexError` (hence `Option`). -/
def Process.fmt (r : Processes) (p : Process) : Option String :=
  (pyGet r._processes p.index).map (fun pr =>
    let sign := if p.multiplier < 0 then "- " else ""
    if |p.multiplier| = 1 then sign ++ pr.1
    else sign ++ ratStr |p.multiplier| ++ "*" ++ pr.1)

/-- Collect a list of optional values, failing if any is `none`. -/
def seqOpt {α : Type} : List (Option α) → Option (List α)
  | [] => some []
  | o :: rest => o.bind (fun x => (seqOpt rest).map (fun xs => x :: xs))

/-- Python `str.replace` on character lists: scan left to right, replace
each non-overlapping occurrence of `old`.  The fuel argument (instantiated
with the string length, an upper bound on the number of steps for a
nonempty `old`) makes the recursion structural. -/
def replaceFuel (old new : List Char) : Nat → List Char → List Char
  | _, [] => []
  | 0, s => s
  | fuel + 1, c :: rest =>
    if old.isPrefixOf (c :: rest) then new ++ replaceFuel old new fuel ((c :: rest).drop old.length)
    else c :: replaceFuel old new fuel rest

/-- Python `s.replace(old, new)` for a nonempty `old`. -/
def pyReplace (s old new : String) : String :=
  ⟨replaceFuel old.data new.data s.data.length s.data⟩

/-- `ProcessExpr.__format__`: format every term, join with `" + "`, then
replace every occurrence of `"+ -"` with `"-"`. -/
def exprFmt (r : Processes) (l : List Process) : Option String :=
  (seqOpt (l.map (Process.fmt r))).map
    (fun strs => pyReplace (String.intercalate " + " strs) "+ -" "-")

/-- Default `Process` value for positional `getD` access. -/
def dp : Process := ⟨0, 0, 0⟩

/-- C3: addition merges terms at structurally-equal positions into a single
term whose multiplier is the sum and drops zero-multiplier terms: adding
two same-position handles yields the one-term expression with the summed
multiplier (when the sum is non-zero); a fresh (multiplier-1) handle added
to itself yields one term with multiplier 2; a handle minus itself yields
the length-0 expression. -/
theorem c3_add_merges_terms (p q u v : Process)
    (hpar : p._parent = q._parent) (hidx : p.index = q.index)
    (hnz : p.multiplier + q.multiplier ≠ 0) (hu : u.multiplier = 1) :
    (procAddProc p q).1 = .ok [⟨p._parent, p.index, p.multiplier + q.multiplier⟩] ∧
    (procAddProc u u).1 = .ok [⟨u._parent, u.index, 2⟩] ∧
    (procSubProc v v).1 = .ok [] := by
  refine ⟨?_, ?_, ?_⟩
  all_goals
    simp [procAddProc, procSubProc, exprAddOp, procMulList, addResult, addFilter,
      mergeAll, mergeStep, procEq, hpar, hidx, hnz, hu]
  all_goals norm_num

/-- Witness for C3 at the fresh handle `⟨0, 0, 1⟩`. -/
theorem c3_add_merges_terms_witness :
    ((1 : ℚ) + 1 ≠ 0) ∧ ((1 : ℚ) = 1) ∧
    ((procAddProc ⟨0, 0, 1⟩ ⟨0, 0, 1⟩).1 = .ok [⟨0, 0, (1 : ℚ) + 1⟩] ∧
     (procAddProc ⟨0, 0, 1⟩ ⟨0, 0, 1⟩).1 = .ok [⟨0, 0, 2⟩] ∧
     (procSubProc ⟨0, 0, 1⟩ ⟨0, 0, 1⟩).1 = .ok []) :=
  ⟨by norm_num, rfl,
   c3_add_merges_terms ⟨0, 0, 1⟩ ⟨0, 0, 1⟩ ⟨0, 0, 1⟩ ⟨0, 0, 1⟩ rfl rfl (by norm_num) rfl⟩

/-- C4 (counterexample): the claim says every negative position fails with
OutOfRange, but `Processes.__getitem__` only checks `arg < len`, so the
position `-1` on a one-definition registry returns a handle carrying
index `-1` instead of raising `IndexError`. -/
theorem c4_counterexample :
    Processes.getitemInt 0 ⟨[("Steel", [2])], none⟩ (-1) = .ok ⟨0, -1, 1⟩ ∧
    Processes.getitemInt 0 ⟨[("Steel", [2])], none⟩ (-1)
      ≠ .error (.indexError indexErrMsg) := by
  constructor <;> simp [Processes.getitemInt]

/-- C4 (amended): positional lookup returns a handle carrying the given
position exactly when the position is below the definition count — so
every negative position also yields a handle, with that negative index —
and fails with `IndexError` exactly for positions at or beyond the count. -/
theorem c4_positional_lookup (rid : Nat) (r : Processes) (arg arg2 : Int)
    (hlt : arg < (r._processes.length : Int))
    (hge : (r._processes.length : Int) ≤ arg2) :
    Processes.getitemInt rid r arg = .ok ⟨rid, arg, 1⟩ ∧
    Processes.getitemInt rid r arg2 = .error (.indexError indexErrMsg) := by
  constructor <;> simp [Processes.getitemInt, hlt, not_lt.mpr hge]

/-- Witness for C4 (amended) on a one-definition registry at positions
`-1` and `1`. -/
theorem c4_positional_lookup_witness :
    ((-1 : Int) < ((Processes.mk [("Steel", [2])] none)._processes.length : Int)) ∧
    (((Processes.mk [("Steel", [2])] none)._processes.length : Int) ≤ 1) ∧
    (Processes.getitemInt 0 ⟨[("Steel", [2])], none⟩ (-1) = .ok ⟨0, -1, 1⟩ ∧
     Processes.getitemInt 0 ⟨[("Steel", [2])], none⟩ 1 = .error (.indexError indexErrMsg)) :=
  ⟨by norm_num, by norm_num,
   c4_positional_lookup 0 ⟨[("Steel", [2])], none⟩ (-1) 1 (by norm_num) (by norm_num)⟩

/-- C6: every addition shape whose operands trace back to different owning
registries fails with `ValueError`, before any merge step runs: the left
expression's list is returned unchanged and the right operand is never
touched.  Handle-plus-handle and handle-plus-expression go through the
expression branch (both operands are wrapped by `* 1` first). -/
theorem c6_cross_registry_add (a b a0 b0 : Process) (A B : List Process)
    (hA : A.head? = some a0) (hB : B.head? = some b0)
    (hab : a._parent ≠ b._parent) (haB : a._parent ≠ b0._parent)
    (hAb : a0._parent ≠ b._parent) (hAB : a0._parent ≠ b0._parent) :
    procAddProc a b =
      (.error (.valueError "Combining two exprs from different processes classes"), procMulList a 1) ∧
    procAddExpr a B =
      (.error (.valueError "Combining two exprs from different processes classes"), procMulList a 1) ∧
    exprAddOp A (.proc b) =
      (.error (.valueError "Combining process and expr from different processes classes"), A) ∧
    exprAddOp A (.expr B) =
      (.error (.valueError "Combining two exprs from different processes classes"), A) := by
  cases A with
  | nil => simp at hA
  | cons x A' =>
    cases B with
    | nil => simp at hB
    | cons y B' =>
      simp only [List.head?_cons, Option.some.injEq] at hA hB
      subst hA; subst hB
      refine ⟨?_, ?_, ?_, ?_⟩ <;>
        simp [procAddProc, procAddExpr, exprAddOp, procMulList, exprMulVal,
          hab, haB, hAb, hAB]

/-- Witness for C6 with registries 0 and 1. -/
theorem c6_cross_registry_add_witness :
    (([(⟨0, 0, 1⟩ : Process)] : List Process).head? = some ⟨0, 0, 1⟩) ∧
    (([(⟨1, 0, 1⟩ : Process)] : List Process).head? = some ⟨1, 0, 1⟩) ∧
    ((0 : Nat) ≠ 1) ∧
    (procAddProc ⟨0, 0, 1⟩ ⟨1, 0, 1⟩ =
      (.error (.valueError "Combining two exprs from different processes classes"),
       procMulList ⟨0, 0, 1⟩ 1) ∧
     procAddExpr ⟨0, 0, 1⟩ [⟨1, 0, 1⟩] =
      (.error (.valueError "Combining two exprs from different processes classes"),
       procMulList ⟨0, 0, 1⟩ 1) ∧
     exprAddOp [⟨0, 0, 1⟩] (.proc ⟨1, 0, 1⟩) =
      (.error (.valueError "Combining process and expr from different processes classes"),
       [⟨0, 0, 1⟩]) ∧
     exprAddOp [⟨0, 0, 1⟩] (.expr [⟨1, 0, 1⟩]) =
      (.error (.valueError "Combining two exprs from different processes classes"),
       [⟨0, 0, 1⟩])) :=
  ⟨rfl, rfl, by norm_num,
   c6_cross_registry_add ⟨0, 0, 1⟩ ⟨1, 0, 1⟩ ⟨0, 0, 1⟩ ⟨1, 0, 1⟩ [⟨0, 0, 1⟩] [⟨1, 0, 1⟩]
     rfl rfl (by norm_num) (by norm_num) (by norm_num) (by norm_num)⟩

/-- C10: a length-0 expression is reachable (`p - p`); adding anything to
it, or it to anything, raises `IndexError` (reading the first term of the
empty list) — a different error from the `ValueError` used for registry
mismatches. -/
theorem c10_empty_expr_add (p v : Process) (X : List Process) (hX : X ≠ []) :
    (procSubProc v v).1 = .ok [] ∧
    exprAddOp [] (.proc p) = (.error (.indexError indexErrMsg), []) ∧
    exprAddOp [] (.expr X) = (.error (.indexError indexErrMsg), []) ∧
    exprAddOp X (.expr []) = (.error (.indexError indexErrMsg), X) ∧
    procAddExpr p [] = (.error (.indexError indexErrMsg), procMulList p 1) ∧
    PyErr.indexError indexErrMsg
      ≠ PyErr.valueError "Combining two exprs from different processes classes" ∧
    PyErr.indexError indexErrMsg
      ≠ PyErr.valueError "Combining process and expr from different processes classes" := by
  obtain ⟨x, X', hX'⟩ : ∃ x X', X = x :: X' := by
    cases X with
    | nil => simp at hX
    | cons x t => exact ⟨x, t, rfl⟩
  subst hX'
  refine ⟨?_, ?_, ?_, ?_, ?_, ?_, ?_⟩ <;>
    simp [procSubProc, procAddExpr, exprAddOp, procMulList, exprMulVal,
      addResult, addFilter, mergeAll, mergeStep, procEq]

/-- Witness for C10 with the one-term expression `[⟨0, 0, 1⟩]`. -/
theorem c10_empty_expr_add_witness :
    (([(⟨0, 0, 1⟩ : Process)] : List Process) ≠ []) ∧
    ((procSubProc ⟨0, 0, 1⟩ ⟨0, 0, 1⟩).1 = .ok [] ∧
     exprAddOp [] (.proc ⟨0, 0, 1⟩) = (.error (.indexError indexErrMsg), []) ∧
     exprAddOp [] (.expr [⟨0, 0, 1⟩]) = (.error (.indexError indexErrMsg), []) ∧
     exprAddOp [⟨0, 0, 1⟩] (.expr []) = (.error (.indexError indexErrMsg), [⟨0, 0, 1⟩]) ∧
     procAddExpr ⟨0, 0, 1⟩ [] = (.error (.indexError indexErrMsg), procMulList ⟨0, 0, 1⟩ 1) ∧
     PyErr.indexError indexErrMsg
       ≠ PyErr.valueError "Combining two exprs from different processes classes" ∧
     PyErr.indexError indexErrMsg
       ≠ PyErr.valueError "Combining process and expr from different processes classes") :=
  ⟨by simp, c10_empty_expr_add ⟨0, 0, 1⟩ ⟨0, 0, 1⟩ [⟨0, 0, 1⟩] (by simp)⟩

/-- C7: expression scalar multiplication returns the identical object
(the same heap index, with no allocation): by exactly 1 the heap is
completely untouched; by any other factor every term's multiplier at that
object is scaled in place, all other fields and all other objects being
preserved.  `__rmul__` delegates to `__mul__`, and negation flips every
multiplier sign in place on the same object. -/
theorem c7_mul_neg_in_place (st : Store) (e : Nat) (he : e < st.length)
    (k : ℚ) (hk : k ≠ 1) (i j : Nat) (hi : i < (st.getD e []).length)
    (hje : j ≠ e) :
    exprMulH st e 1 = (e, st) ∧
    exprRMulH st e 1 = (e, st) ∧
    (exprMulH st e k).1 = e ∧
    (exprMulH st e k).2.length = st.length ∧
    ((exprMulH st e k).2.getD e []).length = (st.getD e []).length ∧
    (((exprMulH st e k).2.getD e []).getD i dp).multiplier
      = ((st.getD e []).getD i dp).multiplier * k ∧
    (((exprMulH st e k).2.getD e []).getD i dp).index
      = ((st.getD e []).getD i dp).index ∧
    (((exprMulH st e k).2.getD e []).getD i dp)._parent
      = ((st.getD e []).getD i dp)._parent ∧
    (exprMulH st e k).2.getD j [] = st.getD j [] ∧
    exprRMulH st e k = exprMulH st e k ∧
    (exprNegH st e).1 = e ∧
    (exprNegH st e).2.length = st.length ∧
    ((exprNegH st e).2.getD e []).length = (st.getD e []).length ∧
    (((exprNegH st e).2.getD e []).getD i dp).multiplier
      = -((st.getD e []).getD i dp).multiplier ∧
    (((exprNegH st e).2.getD e []).getD i dp).index
      = ((st.getD e []).getD i dp).index ∧
    (exprNegH st e).2.getD j [] = st.getD j [] := by
  have hmul : exprMulH st e k = (e, st.set e (scaleList (st.getD e []) k)) := by
    simp [exprMulH, hk]
  have hneg : exprNegH st e = (e, st.set e (negList (st.getD e []))) := rfl
  have hsetE : ∀ X : List Process, (st.set e X).getD e [] = X := by
    intro X
    rw [List.getD_eq_getElem?_getD, List.getElem?_set_eq_of_lt X he]
    rfl
  have hsetJ : ∀ X : List Process, (st.set e X).getD j [] = st.getD j [] := by
    intro X
    rw [List.getD_eq_getElem?_getD, List.getElem?_set_ne (Ne.symm hje),
      ← List.getD_eq_getElem?_getD]
  have hmapE : ∀ (f : Process → Process), ((st.getD e []).map f).getD i dp
      = f ((st.getD e []).getD i dp) := by
    intro f
    simp only [List.getD_eq_getElem?_getD] at hi ⊢
    rw [List.getElem?_map, List.getElem?_eq_getElem hi]
    simp
  refine ⟨by simp [exprMulH], by simp [exprRMulH, exprMulH], ?_, ?_, ?_, ?_, ?_, ?_, ?_,
    by simp [exprRMulH], ?_, ?_, ?_, ?_, ?_, ?_⟩
  · rw [hmul]
  · rw [hmul]; simp
  · rw [hmul]; rw [hsetE, scaleList]; simp
  · rw [hmul]; rw [hsetE, scaleList, hmapE]
  · rw [hmul]; rw [hsetE, scaleList, hmapE]
  · rw [hmul]; rw [hsetE, scaleList, hmapE]
  · rw [hmul]; rw [hsetJ]
  · rw [hneg]
  · rw [hneg]; simp
  · rw [hneg]; rw [hsetE, negList]; simp
  · rw [hneg]; rw [hsetE, negList, hmapE]
  · rw [hneg]; rw [hsetE, negList, hmapE]
  · rw [hneg]; rw [hsetJ]

/-- Witness for C7 on the two-object heap with factor 2. -/
theorem c7_mul_neg_in_place_witness :
    ((0 : Nat) < ([[⟨0, 0, 1⟩], [⟨0, 1, 2⟩]] : Store).length) ∧
    ((2 : ℚ) ≠ 1) ∧
    ((0 : Nat) < (([[⟨0, 0, 1⟩], [⟨0, 1, 2⟩]] : Store).getD 0 []).length) ∧
    ((1 : Nat) ≠ 0) ∧
    (exprMulH [[⟨0, 0, 1⟩], [⟨0, 1, 2⟩]] 0 1 = (0, [[⟨0, 0, 1⟩], [⟨0, 1, 2⟩]]) ∧
     exprRMulH [[⟨0, 0, 1⟩], [⟨0, 1, 2⟩]] 0 1 = (0, [[⟨0, 0, 1⟩], [⟨0, 1, 2⟩]]) ∧
     (exprMulH [[⟨0, 0, 1⟩], [⟨0, 1, 2⟩]] 0 2).1 = 0 ∧
     (exprMulH [[⟨0, 0, 1⟩], [⟨0, 1, 2⟩]] 0 2).2.length
       = ([[⟨0, 0, 1⟩], [⟨0, 1, 2⟩]] : Store).length ∧
     ((exprMulH [[⟨0, 0, 1⟩], [⟨0, 1, 2⟩]] 0 2).2.getD 0 []).length
       = (([[⟨0, 0, 1⟩], [⟨0, 1, 2⟩]] : Store).getD 0 []).length ∧
     (((exprMulH [[⟨0, 0, 1⟩], [⟨0, 1, 2⟩]] 0 2).2.getD 0 []).getD 0 dp).multiplier
       = ((([[⟨0, 0, 1⟩], [⟨0, 1, 2⟩]] : Store).getD 0 []).getD 0 dp).multiplier * 2 ∧
     (((exprMulH [[⟨0, 0, 1⟩], [⟨0, 1, 2⟩]] 0 2).2.getD 0 []).getD 0 dp).index
       = ((([[⟨0, 0, 1⟩], [⟨0, 1, 2⟩]] : Store).getD 0 []).getD 0 dp).index ∧
     (((exprMulH [[⟨0, 0, 1⟩], [⟨0, 1, 2⟩]] 0 2).2.getD 0 []).getD 0 dp)._parent
       = ((([[⟨0, 0, 1⟩], [⟨0, 1, 2⟩]] : Store).getD 0 []).getD 0 dp)._parent ∧
     (exprMulH [[⟨0, 0, 1⟩], [⟨0, 1, 2⟩]] 0 2).2.getD 1 []
       = ([[⟨0, 0, 1⟩], [⟨0, 1, 2⟩]] : Store).getD 1 [] ∧
     exprRMulH [[⟨0, 0, 1⟩], [⟨0, 1, 2⟩]] 0 2 = exprMulH [[⟨0, 0, 1⟩], [⟨0, 1, 2⟩]] 0 2 ∧
     (exprNegH [[⟨0, 0, 1⟩], [⟨0, 1, 2⟩]] 0).1 = 0 ∧
     (exprNegH [[⟨0, 0, 1⟩], [⟨0, 1, 2⟩]] 0).2.length
       = ([[⟨0, 0, 1⟩], [⟨0, 1, 2⟩]] : Store).length ∧
     ((exprNegH [[⟨0, 0, 1⟩], [⟨0, 1, 2⟩]] 0).2.getD 0 []).length
       = (([[⟨0, 0, 1⟩], [⟨0, 1, 2⟩]] : Store).getD 0 []).length ∧
     (((exprNegH [[⟨0, 0, 1⟩], [⟨0, 1, 2⟩]] 0).2.getD 0 []).getD 0 dp).multiplier
       = -((([[⟨0, 0, 1⟩], [⟨0, 1, 2⟩]] : Store).getD 0 []).getD 0 dp).multiplier ∧
     (((exprNegH [[⟨0, 0, 1⟩], [⟨0, 1, 2⟩]] 0).2.getD 0 []).getD 0 dp).index
       = ((([[⟨0, 0, 1⟩], [⟨0, 1, 2⟩]] : Store).getD 0 []).getD 0 dp).index ∧
     (exprNegH [[⟨0, 0, 1⟩], [⟨0, 1, 2⟩]] 0).2.getD 1 []
       = ([[⟨0, 0, 1⟩], [⟨0, 1, 2⟩]] : Store).getD 1 []) :=
  ⟨by norm_num, by norm_num, by norm_num [dp], by norm_num,
   c7_mul_neg_in_place [[⟨0, 0, 1⟩], [⟨0, 1, 2⟩]] 0 (by norm_num) 2 (by norm_num) 0 1
     (by norm_num [dp]) (by norm_num)⟩

/-- C8: subtracting an expression `B` from an expression `A` flips the
sign of every multiplier of `B` in place (the post-state of `B` — the
third component — has the same length, parents and indices, and negated
multipliers) and the result is exactly `A` added to the negated `B`. -/
theorem c8_sub_negates_right (A B : List Process) (a0 b0 : Process)
    (hA : A.head? = some a0) (hB : B.head? = some b0)
    (hpar : a0._parent = b0._parent) (i : Nat) (hi : i < B.length) :
    (exprSubExpr A B).2.2.length = B.length ∧
    ((exprSubExpr A B).2.2.getD i dp).multiplier = -(B.getD i dp).multiplier ∧
    ((exprSubExpr A B).2.2.getD i dp).index = (B.getD i dp).index ∧
    ((exprSubExpr A B).2.2.getD i dp)._parent = (B.getD i dp)._parent ∧
    (exprSubExpr A B).1 = .ok (addResult A (negList B)) ∧
    (exprSubExpr A B).2.1 = mergeAll A (negList B) := by
  have hmap : ∀ (f : Process → Process), (B.map f).getD i dp = f (B.getD i dp) := by
    intro f
    simp [List.getD_eq_getElem?_getD, List.getElem?_map, List.getElem?_eq_getElem hi]
  cases A with
  | nil => simp at hA
  | cons x A' =>
    cases B with
    | nil => simp at hB
    | cons y B' =>
      simp only [List.head?_cons, Option.some.injEq] at hA hB
      subst hA; subst hB
      refine ⟨?_, ?_, ?_, ?_, ?_, ?_⟩
      · simp [exprSubExpr, negList]
      · show ((negList (y :: B')).getD i dp).multiplier = _
        rw [negList, hmap]
      · show ((negList (y :: B')).getD i dp).index = _
        rw [negList, hmap]
      · show ((negList (y :: B')).getD i dp)._parent = _
        rw [negList, hmap]
      · simp [exprSubExpr, exprAddOp, negList, hpar]
      · simp [exprSubExpr, exprAddOp, negList, hpar]

/-- Witness for C8 with `A = [⟨0, 0, 1⟩]` and `B = [⟨0, 1, 2⟩]`. -/
theorem c8_sub_negates_right_witness :
    (([(⟨0, 0, 1⟩ : Process)] : List Process).head? = some ⟨0, 0, 1⟩) ∧
    (([(⟨0, 1, 2⟩ : Process)] : List Process).head? = some ⟨0, 1, 2⟩) ∧
    ((0 : Nat) < ([(⟨0, 1, 2⟩ : Process)] : List Process).length) ∧
    ((exprSubExpr [⟨0, 0, 1⟩] [⟨0, 1, 2⟩]).2.2.length
       = ([(⟨0, 1, 2⟩ : Process)] : List Process).length ∧
     ((exprSubExpr [⟨0, 0, 1⟩] [⟨0, 1, 2⟩]).2.2.getD 0 dp).multiplier
       = -(([(⟨0, 1, 2⟩ : Process)] : List Process).getD 0 dp).multiplier ∧
     ((exprSubExpr [⟨0, 0, 1⟩] [⟨0, 1, 2⟩]).2.2.getD 0 dp).index
       = (([(⟨0, 1, 2⟩ : Process)] : List Process).getD 0 dp).index ∧
     ((exprSubExpr [⟨0, 0, 1⟩] [⟨0, 1, 2⟩]).2.2.getD 0 dp)._parent
       = (([(⟨0, 1, 2⟩ : Process)] : List Process).getD 0 dp)._parent ∧
     (exprSubExpr [⟨0, 0, 1⟩] [⟨0, 1, 2⟩]).1
       = .ok (addResult [⟨0, 0, 1⟩] (negList [⟨0, 1, 2⟩])) ∧
     (exprSubExpr [⟨0, 0, 1⟩] [⟨0, 1, 2⟩]).2.1
       = mergeAll [⟨0, 0, 1⟩] (negList [⟨0, 1, 2⟩])) :=
  ⟨rfl, rfl, by norm_num,
   c8_sub_negates_right [⟨0, 0, 1⟩] [⟨0, 1, 2⟩] ⟨0, 0, 1⟩ ⟨0, 1, 2⟩ rfl rfl rfl 0
     (by norm_num)⟩

theorem getLast?_cons_getD {α : Type} :
    ∀ (l : List α) (x d : α), ((x :: l).getLast?).getD d = (l.getLast?).getD x := by
  intro l
  induction l with
  | nil => intro x d; rfl
  | cons y t ih =>
    intro x d
    rw [List.getLast?_cons_cons, ih y d, ih y x]

theorem length_foldl_set (rs : List (Resource × ℚ)) (a : List ℚ) :
    (rs.foldl (fun a rq => a.set rq.1.index rq.2) a).length = a.length := by
  induction rs generalizing a with
  | nil => rfl
  | cons rq rest ih => simp [ih]

/-- Entry `i` of the write loop of `Processes.create`: the last quantity
supplied at resource index `i` wins; an index never supplied keeps the
initial entry. -/
theorem getD_foldl_set (rs : List (Resource × ℚ)) (a : List ℚ) (i : Nat)
    (hi : i < a.length) :
    (rs.foldl (fun a rq => a.set rq.1.index rq.2) a).getD i 0
      = ((rs.filterMap (fun rq => if rq.1.index = i then some rq.2 else none)).getLast?).getD
          (a.getD i 0) := by
  induction rs generalizing a with
  | nil => rfl
  | cons rq rest ih =>
    by_cases hidx : rq.1.index = i
    · subst hidx
      have hset : (a.set rq.1.index rq.2).getD rq.1.index 0 = rq.2 := by
        rw [List.getD_eq_getElem?_getD, List.getElem?_set_eq_of_lt rq.2 hi]
        rfl
      have hfm : (rq :: rest).filterMap
            (fun rq' => if rq'.1.index = rq.1.index then some rq'.2 else none)
          = rq.2 :: rest.filterMap
              (fun rq' => if rq'.1.index = rq.1.index then some rq'.2 else none) := by
        simp
      simp only [List.foldl_cons]
      rw [hfm, ih (a.set rq.1.index rq.2) (by simpa using hi), hset, getLast?_cons_getD]
    · have hset : (a.set rq.1.index rq.2).getD i 0 = a.getD i 0 := by
        rw [List.getD_eq_getElem?_getD, List.getElem?_set_ne hidx,
          ← List.getD_eq_getElem?_getD]
      have hfm : (rq :: rest).filterMap
            (fun rq' => if rq'.1.index = i then some rq'.2 else none)
          = rest.filterMap (fun rq' => if rq'.1.index = i then some rq'.2 else none) := by
        simp [hidx]
      simp only [List.foldl_cons]
      rw [hfm, ih (a.set rq.1.index rq.2) (by simpa using hi), hset]

/-- C2: defining a process with zero pairs fails with `ValueError` and the
registry is unchanged; with at least one pair, exactly one definition is
appended, whose vector has length (largest supplied index + 1), holds at
every position below that length the last quantity supplied for that
position (0 when never supplied), and a handle at the new last position
with multiplier 1 is returned. -/
theorem c2_create (rid : Nat) (r : Processes) (name name2 : String)
    (rs : List (Resource × ℚ)) (hrs : rs ≠ []) (i : Nat)
    (hi : i < maxResIdx rs + 1) :
    Processes.create rid r name2 []
      = (.error (.valueError ("No resources attached to " ++ name2)), r) ∧
    (Processes.create rid r name rs).2._processes = r._processes ++ [(name, mkVec rs)] ∧
    (Processes.create rid r name rs).2._processes.length = r._processes.length + 1 ∧
    (Processes.create rid r name rs).2._process_produces = r._process_produces ∧
    (Processes.create rid r name rs).1 = .ok ⟨rid, (r._processes.length : Int), 1⟩ ∧
    (mkVec rs).length = maxResIdx rs + 1 ∧
    (mkVec rs).getD i 0
      = ((rs.filterMap (fun rq => if rq.1.index = i then some rq.2 else none)).getLast?).getD 0 := by
  obtain ⟨rq0, rs', hrs'⟩ : ∃ rq0 rs', rs = rq0 :: rs' := by
    cases rs with
    | nil => simp at hrs
    | cons rq0 rs' => exact ⟨rq0, rs', rfl⟩
  have hlen : (mkVec rs).length = maxResIdx rs + 1 := by
    rw [mkVec, length_foldl_set]
    simp
  have hrepl : (List.replicate (maxResIdx rs + 1) (0 : ℚ)).getD i 0 = 0 := by
    rw [List.getD_eq_getElem?_getD, List.getElem?_replicate_of_lt hi]
    rfl
  refine ⟨by simp [Processes.create], ?_, ?_, ?_, ?_, hlen, ?_⟩
  · subst hrs'; simp [Processes.create]
  · subst hrs'; simp [Processes.create]
  · subst hrs'; simp [Processes.create]
  · subst hrs'
    simp only [Processes.create, Processes.getitemInt]
    rw [if_pos]
    · simp
    · simp only [List.length_append, List.length_cons]
      push_cast
      omega
  · rw [mkVec, getD_foldl_set rs (List.replicate (maxResIdx rs + 1) 0) i (by simpa using hi),
      hrepl]

/-- Witness for C2: `"Proc"` with pairs at indices 1 (twice: the later
quantity wins) appended to a one-definition registry; entry checked at
position 1. -/
theorem c2_create_witness :
    (([((⟨1⟩ : Resource), (5 : ℚ)), (⟨1⟩, 7)] : List (Resource × ℚ)) ≠ []) ∧
    ((1 : Nat) < maxResIdx [((⟨1⟩ : Resource), (5 : ℚ)), (⟨1⟩, 7)] + 1) ∧
    (Processes.create 0 ⟨[("Steel", [2])], none⟩ "Other" []
      = (.error (.valueError ("No resources attached to " ++ "Other")), ⟨[("Steel", [2])], none⟩) ∧
     (Processes.create 0 ⟨[("Steel", [2])], none⟩ "Proc" [(⟨1⟩, 5), (⟨1⟩, 7)]).2._processes
       = ([("Steel", [2])] : List (String × List ℚ))
           ++ [("Proc", mkVec [(⟨1⟩, 5), (⟨1⟩, 7)])] ∧
     (Processes.create 0 ⟨[("Steel", [2])], none⟩ "Proc" [(⟨1⟩, 5), (⟨1⟩, 7)]).2._processes.length
       = ([("Steel", [2])] : List (String × List ℚ)).length + 1 ∧
     (Processes.create 0 ⟨[("Steel", [2])], none⟩ "Proc" [(⟨1⟩, 5), (⟨1⟩, 7)]).2._process_produces
       = (Processes.mk [("Steel", [2])] none)._process_produces ∧
     (Processes.create 0 ⟨[("Steel", [2])], none⟩ "Proc" [(⟨1⟩, 5), (⟨1⟩, 7)]).1
       = .ok ⟨0, (([("Steel", [2])] : List (String × List ℚ)).length : Int), 1⟩ ∧
     (mkVec [(⟨1⟩, 5), (⟨1⟩, 7)]).length = maxResIdx [(⟨1⟩, 5), (⟨1⟩, 7)] + 1 ∧
     (mkVec [(⟨1⟩, 5), (⟨1⟩, 7)]).getD 1 0
       = ((([(⟨1⟩, 5), (⟨1⟩, 7)] : List (Resource × ℚ)).filterMap
            (fun rq => if rq.1.index = 1 then some rq.2 else none)).getLast?).getD 0) :=
  ⟨by simp, by norm_num [maxResIdx, listMax],
   c2_create 0 ⟨[("Steel", [2])], none⟩ "Proc" "Other" [(⟨1⟩, 5), (⟨1⟩, 7)] (by simp) 1
     (by norm_num [maxResIdx, listMax])⟩

/-- Number of definitions whose name matches `arg` exactly. -/
def matchCount (r : Processes) (arg : String) : Nat :=
  (r._processes.filter (fun pr => pr.1 == arg)).length

/-- The first (and, when `matchCount = 1`, the unique) matching index. -/
def firstMatchIdx (r : Processes) (arg : String) : Nat :=
  (namedIndices r arg).headD 0

theorem namedIndicesAux_length (arg : String) :
    ∀ (l : List (String × List ℚ)) (k : Nat),
      (namedIndicesAux arg k l).length = (l.filter (fun pr => pr.1 == arg)).length := by
  intro l
  induction l with
  | nil => intro k; rfl
  | cons pr rest ih =>
    intro k
    by_cases hpr : pr.1 = arg
    · simp [namedIndicesAux, hpr, ih]
    · simp [namedIndicesAux, hpr, ih]

theorem namedIndicesAux_mem (arg : String) :
    ∀ (l : List (String × List ℚ)) (k i : Nat), i ∈ namedIndicesAux arg k l →
      k ≤ i ∧ i - k < l.length ∧ (l.getD (i - k) dfltPr).1 = arg := by
  intro l
  induction l with
  | nil => intro k i h; simp [namedIndicesAux] at h
  | cons pr rest ih =>
    intro k i h
    by_cases hpr : pr.1 = arg
    · simp only [namedIndicesAux, if_pos hpr] at h
      rcases List.mem_cons.mp h with h1 | h1
      · subst h1
        exact ⟨le_rfl, by simp, by simp [hpr]⟩
      · obtain ⟨hk, hlen, hname⟩ := ih (k + 1) i h1
        refine ⟨by omega, by simp only [List.length_cons]; omega, ?_⟩
        have hik : i - k = (i - (k + 1)) + 1 := by omega
        rw [hik]
        simpa using hname
    · simp only [namedIndicesAux, if_neg hpr] at h
      obtain ⟨hk, hlen, hname⟩ := ih (k + 1) i h
      refine ⟨by omega, by simp only [List.length_cons]; omega, ?_⟩
      have hik : i - k = (i - (k + 1)) + 1 := by omega
      rw [hik]
      simpa using hname

/-- C5: name lookup returns the unique matching definition's handle when
exactly one definition matches, fails with the not-found `KeyError` when
none matches, and fails with the distinct non-unique `KeyError` when
several match. -/
theorem c5_name_lookup (rid : Nat) (r0 r1 r2 : Processes) (arg : String)
    (h0 : matchCount r0 arg = 0) (h1 : matchCount r1 arg = 1)
    (h2 : 2 ≤ matchCount r2 arg) :
    Processes.getitemName rid r0 arg = .error (.keyError (notFoundMsg arg)) ∧
    Processes.getitemName rid r1 arg = .ok ⟨rid, (firstMatchIdx r1 arg : Int), 1⟩ ∧
    firstMatchIdx r1 arg < r1._processes.length ∧
    (r1._processes.getD (firstMatchIdx r1 arg) dfltPr).1 = arg ∧
    Processes.getitemName rid r2 arg = .error (.keyError (ambiguousMsg arg)) ∧
    notFoundMsg arg ≠ ambiguousMsg arg := by
  have hL0 : (namedIndices r0 arg).length = 0 := by
    rw [namedIndices, namedIndicesAux_length]; exact h0
  have hL1 : (namedIndices r1 arg).length = 1 := by
    rw [namedIndices, namedIndicesAux_length]; exact h1
  have hL2 : 2 ≤ (namedIndices r2 arg).length := by
    rw [namedIndices, namedIndicesAux_length]; exact h2
  have hnil : namedIndices r0 arg = [] := List.length_eq_zero.mp hL0
  obtain ⟨i0, hsing⟩ : ∃ i0, namedIndices r1 arg = [i0] := by
    cases hsh : namedIndices r1 arg with
    | nil => rw [hsh] at hL1; simp at hL1
    | cons x t =>
      cases t with
      | nil => exact ⟨x, rfl⟩
      | cons y t' => rw [hsh] at hL1; simp at hL1
  obtain ⟨x2, y2, t2, hmany⟩ : ∃ x2 y2 t2, namedIndices r2 arg = x2 :: y2 :: t2 := by
    cases hsh : namedIndices r2 arg with
    | nil => rw [hsh] at hL2; simp at hL2
    | cons x t =>
      cases t with
      | nil => rw [hsh] at hL2; simp at hL2
      | cons y t' => exact ⟨x, y, t', rfl⟩
  have hmem : i0 ∈ namedIndicesAux arg 0 r1._processes := by
    have : i0 ∈ namedIndices r1 arg := by rw [hsing]; simp
    simpa [namedIndices] using this
  obtain ⟨-, hbound, hname⟩ := namedIndicesAux_mem arg r1._processes 0 i0 hmem
  have hfirst : firstMatchIdx r1 arg = i0 := by
    rw [firstMatchIdx, hsing]; rfl
  have hmsg : notFoundMsg arg ≠ ambiguousMsg arg := by
    intro h
    have hlen := congrArg String.length h
    rw [notFoundMsg, ambiguousMsg] at hlen
    simp only [String.length_append] at hlen
    have e1 : String.length "'" = 1 := rfl
    have e2 : String.length "Name " = 5 := rfl
    have e3 : String.length " non unique: please use index" = 29 := rfl
    omega
  refine ⟨by simp [Processes.getitemName, hnil], ?_, ?_, ?_,
    by simp [Processes.getitemName, hmany], hmsg⟩
  · simp [Processes.getitemName, hsing, hfirst]
  · rw [hfirst]; simpa using hbound
  · rw [hfirst]; simpa using hname

/-- Witness for C5: empty registry (no match), the Steel/Coal registry
(unique match for `"Steel"`), and a registry with two `"Steel"`
definitions (ambiguous). -/
theorem c5_name_lookup_witness :
    matchCount ⟨[], none⟩ "Steel" = 0 ∧
    matchCount ⟨[("Steel", [2]), ("Coal", [0, 3])], none⟩ "Steel" = 1 ∧
    2 ≤ matchCount ⟨[("Steel", [2]), ("Steel", [3])], none⟩ "Steel" ∧
    (Processes.getitemName 0 ⟨[], none⟩ "Steel" = .error (.keyError (notFoundMsg "Steel")) ∧
     Processes.getitemName 0 ⟨[("Steel", [2]), ("Coal", [0, 3])], none⟩ "Steel"
       = .ok ⟨0, (firstMatchIdx ⟨[("Steel", [2]), ("Coal", [0, 3])], none⟩ "Steel" : Int), 1⟩ ∧
     firstMatchIdx ⟨[("Steel", [2]), ("Coal", [0, 3])], none⟩ "Steel"
       < (Processes.mk [("Steel", [2]), ("Coal", [0, 3])] none)._processes.length ∧
     ((Processes.mk [("Steel", [2]), ("Coal", [0, 3])] none)._processes.getD
        (firstMatchIdx ⟨[("Steel", [2]), ("Coal", [0, 3])], none⟩ "Steel") dfltPr).1 = "Steel" ∧
     Processes.getitemName 0 ⟨[("Steel", [2]), ("Steel", [3])], none⟩ "Steel"
       = .error (.keyError (ambiguousMsg "Steel")) ∧
     notFoundMsg "Steel" ≠ ambiguousMsg "Steel") :=
  ⟨rfl, rfl, by norm_num [matchCount],
   c5_name_lookup 0 ⟨[], none⟩ ⟨[("Steel", [2]), ("Coal", [0, 3])], none⟩
     ⟨[("Steel", [2]), ("Steel", [3])], none⟩ "Steel" rfl rfl (by norm_num [matchCount])⟩

/-- The empty registry. -/
def reg0 : Processes := ⟨[], none⟩

/-- Registry after `create("Steel", (resource 0, 2.0))`. -/
def regS : Processes := (Processes.create 0 reg0 "Steel" [(⟨0⟩, 2)]).2

/-- Registry after a further `create("Coal", (resource 1, 3.0))`. -/
def regSC : Processes := (Processes.create 0 regS "Coal" [(⟨1⟩, 3)]).2

/-- C9: a handle renders as a `"- "` prefix exactly for a negative
multiplier, followed by the bare name for magnitude exactly 1 and by
`"<magnitude>*<name>"` otherwise; an expression renders its terms joined
by `" + "`, with every occurrence of `"+ -"` then replaced by `"-"`.
End to end, the two-registry expression `Steel - Coal` (built through
`create` and handle subtraction) renders exactly as `"Steel - Coal"`. -/
theorem c9_format (r : Processes) (p : Process) (pr : String × List ℚ)
    (h : pyGet r._processes p.index = some pr) (l : List Process) (strs : List String)
    (hl : seqOpt (l.map (Process.fmt r)) = some strs) :
    Process.fmt r p = some ((if p.multiplier < 0 then "- " else "")
        ++ (if |p.multiplier| = 1 then pr.1 else ratStr |p.multiplier| ++ "*" ++ pr.1)) ∧
    exprFmt r l = some (pyReplace (String.intercalate " + " strs) "+ -" "-") ∧
    (Processes.create 0 reg0 "Steel" [(⟨0⟩, 2)]).1 = .ok ⟨0, 0, 1⟩ ∧
    (Processes.create 0 regS "Coal" [(⟨1⟩, 3)]).1 = .ok ⟨0, 1, 1⟩ ∧
    (procSubProc ⟨0, 0, 1⟩ ⟨0, 1, 1⟩).1 = .ok [⟨0, 0, 1⟩, ⟨0, 1, -1⟩] ∧
    Process.fmt regSC ⟨0, 0, 1⟩ = some "Steel" ∧
    Process.fmt regSC ⟨0, 0, -1⟩ = some "- Steel" ∧
    Process.fmt regSC ⟨0, 0, 2⟩ = some "2*Steel" ∧
    Process.fmt regSC ⟨0, 0, -2⟩ = some "- 2*Steel" ∧
    exprFmt regSC [⟨0, 0, 1⟩, ⟨0, 1, -1⟩] = some "Steel - Coal" := by
  have hfmt : Process.fmt r p = some ((if p.multiplier < 0 then "- " else "")
      ++ (if |p.multiplier| = 1 then pr.1 else ratStr |p.multiplier| ++ "*" ++ pr.1)) := by
    rw [Process.fmt, h]
    simp only [Option.map_some']
    by_cases hm : |p.multiplier| = 1 <;> by_cases hs : p.multiplier < 0 <;>
      simp [hm, hs, String.append_assoc]
  have hexpr : exprFmt r l = some (pyReplace (String.intercalate " + " strs) "+ -" "-") := by
    rw [exprFmt, hl]
    rfl
  have hregSC : regSC = ⟨[("Steel", [2]), ("Coal", [0, 3])], none⟩ := by
    simp [regSC, regS, reg0, Processes.create, mkVec, maxResIdx, listMax]
  refine ⟨hfmt, hexpr, by simp [reg0, Processes.create, Processes.getitemInt], ?_, ?_,
    ?_, ?_, ?_, ?_, ?_⟩
  · simp [regS, reg0, Processes.create, Processes.getitemInt, mkVec, maxResIdx, listMax]
  · simp [procSubProc, exprAddOp, procMulList, addResult, addFilter, mergeAll, mergeStep,
      procEq]
  · rw [hregSC]
    have h10 : ¬((1 : ℚ) < 0) := by norm_num
    simp [Process.fmt, pyGet, h10]
  · rw [hregSC]
    simp [Process.fmt, pyGet, abs_of_nonpos]
  · rw [hregSC]
    simp [Process.fmt, pyGet, ratStr]
    decide
  · rw [hregSC]
    simp [Process.fmt, pyGet, ratStr, abs_of_nonpos]
    decide
  · rw [hregSC]
    simp [exprFmt, seqOpt, Process.fmt, pyGet, pyReplace, replaceFuel, String.intercalate,
      abs_of_nonpos]

/-- Witness for C9 at the Steel/Coal registry with a unit handle and the
one-term list rendering `"Steel"`. -/
theorem c9_format_witness :
    pyGet (regSC)._processes ((⟨0, 0, 1⟩ : Process).index) = some ("Steel", [2]) ∧
    seqOpt (([⟨0, 0, 1⟩] : List Process).map (Process.fmt regSC)) = some ["Steel"] ∧
    (Process.fmt regSC ⟨0, 0, 1⟩ = some ((if (1 : ℚ) < 0 then "- " else "")
        ++ (if |(1 : ℚ)| = 1 then "Steel" else ratStr |(1 : ℚ)| ++ "*" ++ "Steel")) ∧
     exprFmt regSC [⟨0, 0, 1⟩]
       = some (pyReplace (String.intercalate " + " ["Steel"]) "+ -" "-") ∧
     (Processes.create 0 reg0 "Steel" [(⟨0⟩, 2)]).1 = .ok ⟨0, 0, 1⟩ ∧
     (Processes.create 0 regS "Coal" [(⟨1⟩, 3)]).1 = .ok ⟨0, 1, 1⟩ ∧
     (procSubProc ⟨0, 0, 1⟩ ⟨0, 1, 1⟩).1 = .ok [⟨0, 0, 1⟩, ⟨0, 1, -1⟩] ∧
     Process.fmt regSC ⟨0, 0, 1⟩ = some "Steel" ∧
     Process.fmt regSC ⟨0, 0, -1⟩ = some "- Steel" ∧
     Process.fmt regSC ⟨0, 0, 2⟩ = some "2*Steel" ∧
     Process.fmt regSC ⟨0, 0, -2⟩ = some "- 2*Steel" ∧
     exprFmt regSC [⟨0, 0, 1⟩, ⟨0, 1, -1⟩] = some "Steel - Coal") :=
  ⟨rfl, rfl,
   c9_format regSC ⟨0, 0, 1⟩ ("Steel", [2]) rfl [⟨0, 0, 1⟩] ["Steel"] rfl⟩

theorem le_listMax : ∀ {a : Nat} {l : List Nat}, a ∈ l → a ≤ listMax l := by
  intro a l
  induction l with
  | nil => intro h; simp at h
  | cons x t ih =>
    intro h
    rcases List.mem_cons.mp h with h1 | h1
    · subst h1; exact le_max_left _ _
    · exact le_trans (ih h1) (le_max_right _ _)

theorem take_replicate_of_le {α : Type} (a : α) :
    ∀ (m n : Nat), m ≤ n → (List.replicate n a).take m = List.replicate m a := by
  intro m
  induction m with
  | zero => intro n h; simp
  | succ m ih =>
    intro n h
    cases n with
    | zero => omega
    | succ n => simp [List.replicate_succ, ih n (by omega)]

/-- `numpy.resize` to a not-smaller length is right-padding with zeros. -/
theorem npResize_eq_pad (v : List ℚ) (n : Nat) (h : v.length ≤ n) :
    npResize v n = v ++ List.replicate (n - v.length) 0 := by
  rw [npResize, List.take_append_eq_append_take, List.take_of_length_le h,
    take_replicate_of_le 0 (n - v.length) n (Nat.sub_le n v.length)]

theorem transposeMat_length (numRows : Nat) (cols : List (List ℚ)) :
    (transposeMat numRows cols).length = numRows := by
  simp [transposeMat]

theorem transposeMat_getD (numRows : Nat) (cols : List (List ℚ)) (i : Nat)
    (hi : i < numRows) :
    (transposeMat numRows cols).getD i [] = cols.map (fun v => v.getD i 0) := by
  rw [transposeMat, List.getD_eq_getElem?_getD, List.getElem?_map, List.getElem?_range hi]
  rfl

/-- C1: the first access to `process_produces` on a non-empty registry
pads every stored vector in place with trailing zeros to the maximum
vector length, returns the matrix whose rows are resource positions and
whose column `j` is definition `j`'s padded vector, and caches it; after
an intervening `create`, the next access still returns the cached matrix
of the first access, with the registry state untouched. -/
theorem c1_produce_matrix (rid : Nat) (r : Processes) (i j : Nat)
    (h1 : r._processes ≠ []) (h2 : r._process_produces = none)
    (hi : i < maxVecLen r) (hj : j < r._processes.length)
    (name : String) (rs : List (Resource × ℚ)) (hrs : rs ≠ []) :
    (r.process_produces).1 = .ok (produceMatrix r) ∧
    (r.process_produces).2._process_produces = some (produceMatrix r) ∧
    (r.process_produces).2._processes.length = r._processes.length ∧
    ((r.process_produces).2._processes.getD j dfltPr).1
      = (r._processes.getD j dfltPr).1 ∧
    ((r.process_produces).2._processes.getD j dfltPr).2
      = (r._processes.getD j dfltPr).2
          ++ List.replicate (maxVecLen r - (r._processes.getD j dfltPr).2.length) 0 ∧
    (produceMatrix r).length = maxVecLen r ∧
    ((produceMatrix r).getD i []).length = r._processes.length ∧
    ((produceMatrix r).getD i []).getD j 0
      = ((r.process_produces).2._processes.getD j dfltPr).2.getD i 0 ∧
    (Processes.create rid (r.process_produces).2 name rs).2.process_produces
      = (.ok (produceMatrix r), (Processes.create rid (r.process_produces).2 name rs).2) := by
  have hmapD : ∀ {β : Type} (f : (String × List ℚ) → β) (d : β),
      (r._processes.map f).getD j d = f (r._processes.getD j dfltPr) := by
    intro β f d
    rw [List.getD_eq_getElem?_getD, List.getD_eq_getElem?_getD, List.getElem?_map,
      List.getElem?_eq_getElem hj]
    simp
  have hvlen : (r._processes.getD j dfltPr).2.length ≤ maxVecLen r := by
    apply le_listMax
    have hmem : r._processes.getD j dfltPr ∈ r._processes := by
      rw [List.getD_eq_getElem?_getD, List.getElem?_eq_getElem hj]
      exact List.getElem_mem hj
    exact List.mem_map.mpr ⟨_, hmem, rfl⟩
  have hpadD : (paddedProcesses r).getD j dfltPr
      = ((r._processes.getD j dfltPr).1,
         npResize (r._processes.getD j dfltPr).2 (maxVecLen r)) := by
    rw [paddedProcesses]
    exact hmapD (fun pr => (pr.1, npResize pr.2 (maxVecLen r))) dfltPr
  have hstep : r.process_produces
      = (.ok (produceMatrix r),
         { _processes := paddedProcesses r, _process_produces := some (produceMatrix r) }) := by
    obtain ⟨l, c⟩ := r
    simp only at h1 h2
    subst h2
    cases l with
    | nil => simp at h1
    | cons pr0 rest => rfl
  have hrowsD : (produceMatrix r).getD i [] =
      ((paddedProcesses r).map (fun pr => pr.2)).map (fun v => v.getD i 0) := by
    rw [produceMatrix, transposeMat_getD _ _ i hi]
  refine ⟨by rw [hstep], by rw [hstep], ?_, ?_, ?_, ?_, ?_, ?_, ?_⟩
  · rw [hstep]
    simp [paddedProcesses]
  · rw [hstep]
    simp only [hpadD]
  · rw [hstep]
    simp only [hpadD]
    exact npResize_eq_pad _ _ hvlen
  · rw [produceMatrix, transposeMat_length]
  · rw [hrowsD]
    simp [paddedProcesses]
  · rw [hstep]
    simp only [hpadD, hrowsD]
    rw [paddedProcesses, List.map_map, List.map_map]
    exact hmapD (fun pr => (npResize pr.2 (maxVecLen r)).getD i 0) 0
  · obtain ⟨rq0, rs', hrs'⟩ : ∃ rq0 rs', rs = rq0 :: rs' := by
      cases rs with
      | nil => simp at hrs
      | cons rq0 rs' => exact ⟨rq0, rs', rfl⟩
    subst hrs'
    rw [hstep]
    rfl

/-- Witness for C1 on the Steel/Coal registry of uneven vector lengths,
entry (0, 1), followed by a `create` of `"X"`. -/
theorem c1_produce_matrix_witness :
    ((Processes.mk [("Steel", [2]), ("Coal", [0, 3])] none)._processes ≠ []) ∧
    ((Processes.mk [("Steel", [2]), ("Coal", [0, 3])] none)._process_produces = none) ∧
    ((0 : Nat) < maxVecLen ⟨[("Steel", [2]), ("Coal", [0, 3])], none⟩) ∧
    ((1 : Nat) < (Processes.mk [("Steel", [2]), ("Coal", [0, 3])] none)._processes.length) ∧
    (([((⟨0⟩ : Resource), (1 : ℚ))] : List (Resource × ℚ)) ≠ []) ∧
    (((Processes.mk [("Steel", [2]), ("Coal", [0, 3])] none).process_produces).1
       = .ok (produceMatrix ⟨[("Steel", [2]), ("Coal", [0, 3])], none⟩) ∧
     ((Processes.mk [("Steel", [2]), ("Coal", [0, 3])] none).process_produces).2._process_produces
       = some (produceMatrix ⟨[("Steel", [2]), ("Coal", [0, 3])], none⟩) ∧
     ((Processes.mk [("Steel", [2]), ("Coal", [0, 3])] none).process_produces).2._processes.length
       = (Processes.mk [("Steel", [2]), ("Coal", [0, 3])] none)._processes.length ∧
     (((Processes.mk [("Steel", [2]), ("Coal", [0, 3])] none).process_produces).2._processes.getD 1 dfltPr).1
       = ((Processes.mk [("Steel", [2]), ("Coal", [0, 3])] none)._processes.getD 1 dfltPr).1 ∧
     (((Processes.mk [("Steel", [2]), ("Coal", [0, 3])] none).process_produces).2._processes.getD 1 dfltPr).2
       = ((Processes.mk [("Steel", [2]), ("Coal", [0, 3])] none)._processes.getD 1 dfltPr).2
           ++ List.replicate (maxVecLen ⟨[("Steel", [2]), ("Coal", [0, 3])], none⟩
               - ((Processes.mk [("Steel", [2]), ("Coal", [0, 3])] none)._processes.getD 1 dfltPr).2.length) 0 ∧
     (produceMatrix ⟨[("Steel", [2]), ("Coal", [0, 3])], none⟩).length
       = maxVecLen ⟨[("Steel", [2]), ("Coal", [0, 3])], none⟩ ∧
     ((produceMatrix ⟨[("Steel", [2]), ("Coal", [0, 3])], none⟩).getD 0 []).length
       = (Processes.mk [("Steel", [2]), ("Coal", [0, 3])] none)._processes.length ∧
     ((produceMatrix ⟨[("Steel", [2]), ("Coal", [0, 3])], none⟩).getD 0 []).getD 1 0
       = (((Processes.mk [("Steel", [2]), ("Coal", [0, 3])] none).process_produces).2._processes.getD 1 dfltPr).2.getD 0 0 ∧
     (Processes.create 7 ((Processes.mk [("Steel", [2]), ("Coal", [0, 3])] none).process_produces).2
         "X" [(⟨0⟩, 1)]).2.process_produces
       = (.ok (produceMatrix ⟨[("Steel", [2]), ("Coal", [0, 3])], none⟩),
          (Processes.create 7 ((Processes.mk [("Steel", [2]), ("Coal", [0, 3])] none).process_produces).2
            "X" [(⟨0⟩, 1)]).2)) :=
  ⟨by simp, rfl, by norm_num [maxVecLen, listMax], by norm_num, by simp,
   c1_produce_matrix 7 ⟨[("Steel", [2]), ("Coal", [0, 3])], none⟩ 0 1 (by simp) rfl
     (by norm_num [maxVecLen, listMax]) (by norm_num) "X" [(⟨0⟩, 1)] (by simp)⟩

end MatDp
